import Mathlib

/-!
Shallow embedding of `src/timetracking.py` (desktop activity logger).

Modelling conventions:
* Timestamps and durations are modelled as `Nat` seconds.  A Python
  `timedelta` produced as `end - start` (with `end ≥ start`) is represented
  by its total number of seconds; its `.seconds` attribute is the
  within-day remainder `total % 86400`.
* The window title source yields `Option String` (`none` = no focused
  window, mirroring `gw.getActiveWindow()` returning `None`).
* The polling loop of `track_active_window` is modelled as a step function
  on the tracker's mutable state plus a fold over a list of poll inputs.
* CSV file I/O is modelled as an optional list of rows (`none` = the file
  does not exist); a `Bool` flag on each write models whether the write
  raises an exception (caught and logged inside `save_to_csv`).
-/

namespace TimeTracking

/-- Substring test on character lists: `containsSub hay needle` is true iff
`needle` occurs contiguously inside `hay`.  Mirrors Python's
`needle in hay` for strings. -/
def containsSub (hay needle : List Char) : Bool :=
  match hay with
  | [] => needle.isEmpty
  | c :: cs => needle.isPrefixOf (c :: cs) || containsSub cs needle

/-- Python's `needle in hay` on strings. -/
def strContains (hay needle : String) : Bool :=
  containsSub hay.toList needle.toList

/-- Python's `title.split(' - ')` on the character list of the title:
leftmost, non-overlapping splitting on the three-character separator
`" - "`.  The separator is the fixed literal used in `extract_app_name`. -/
def splitDash : List Char → List (List Char)
  | ' ' :: '-' :: ' ' :: rest => [] :: splitDash rest
  | c :: cs =>
    match splitDash cs with
    | [] => [[c]]
    | p :: ps => (c :: p) :: ps
  | [] => [[]]

/-- The character set removed by Python's default `str.strip()`: code
points for which `str.isspace()` holds, i.e. the Unicode White_Space
property (U+0009-U+000D, U+0020, U+0085, U+00A0, U+1680, U+2000-U+200A,
U+2028, U+2029, U+202F, U+205F, U+3000) plus the separator controls
U+001C-U+001F. -/
def pyIsSpace (c : Char) : Bool :=
  (9 ≤ c.val && c.val ≤ 13) || (28 ≤ c.val && c.val ≤ 32) ||
  c.val == 133 || c.val == 160 || c.val == 5760 ||
  (8192 ≤ c.val && c.val ≤ 8202) || c.val == 8232 || c.val == 8233 ||
  c.val == 8239 || c.val == 8287 || c.val == 12288

/-- Python's `str.strip()` (with default whitespace argument) on a
character list: drop `pyIsSpace` characters from both ends. -/
def stripChars (l : List Char) : List Char :=
  ((l.dropWhile pyIsSpace).reverse.dropWhile pyIsSpace).reverse

/-- The `browser_tags` dict of `extract_app_name` (insertion order
preserved, as Python iterates it). -/
def browser_tags : List (String × String) :=
  [(" - Google Chrome", "Google Chrome"),
   (" - Mozilla Firefox", "Mozilla Firefox"),
   (" - Microsoft Edge", "Microsoft Edge")]

/-- `extract_app_name` from `src/timetracking.py` (lines 84-116): browser
tags first, then the `"Excel"` / `"Word"` substring special cases, then
the general `" - "` split taking the last part (second-to-last when the
last is blank after stripping), else the title unchanged. -/
def extract_app_name (title : String) : String :=
  match browser_tags.find? (fun p => strContains title p.1) with
  | some p => p.2
  | none =>
    if strContains title "Excel" then "Microsoft Excel"
    else if strContains title "Word" then "Microsoft Word"
    else
      let parts := splitDash title.toList
      if parts.length > 1 then
        if stripChars (parts.getLastD []) ≠ [] then String.mk (parts.getLastD [])
        else String.mk (parts.getD (parts.length - 2) [])
      else title

/-- Zero-padding to two digits, Python's `'{:02}'.format(n)` for the
`n ≤ 99` values produced by the formatters. -/
def pad2 (n : Nat) : String :=
  if n < 10 then "0" ++ toString n else toString n

/-- The `.seconds` attribute of a (non-negative) Python `timedelta` whose
total length is `td` seconds: the within-day remainder. -/
def tdSeconds (td : Nat) : Nat := td % 86400

/-- `format_timedelta` (lines 119-128): `divmod(td.seconds, 3600)` then
`divmod(remainder, 60)`, rendered as zero-padded `HH:MM:SS`.  Note it
reads `td.seconds`, the within-day remainder, not the total duration. -/
def format_timedelta (td : Nat) : String :=
  let hours := tdSeconds td / 3600
  let remainder := tdSeconds td % 3600
  let minutes := remainder / 60
  let seconds := remainder % 60
  pad2 hours ++ ":" ++ pad2 minutes ++ ":" ++ pad2 seconds

/-- `format_readable_timedelta` (lines 130-139): same `td.seconds`
decomposition rendered as `"H hr M mins S sec"`. -/
def format_readable_timedelta (td : Nat) : String :=
  let hours := tdSeconds td / 3600
  let remainder := tdSeconds td % 3600
  let minutes := remainder / 60
  let seconds := remainder % 60
  toString hours ++ " hr " ++ toString minutes ++ " mins " ++ toString seconds ++ " sec"

/-- Modelled from the spec: the spec's reading of the zero-padded form as
representing "the full duration", i.e. `HH:MM:SS` computed from the whole
duration with an unbounded hours field.  Used only to compare the spec's
words against `format_timedelta` as implemented. -/
def specFullHHMMSS (td : Nat) : String :=
  pad2 (td / 3600) ++ ":" ++ pad2 (td % 3600 / 60) ++ ":" ++ pad2 (td % 60)

/-- One row of the tracking data (the dict appended to the global `data`
list in `track_active_window`, lines 177-184).  Start/end timestamps are
kept as raw seconds; the two duration strings are produced exactly as in
the code. -/
structure ActivitySegment where
  application : String
  title : String
  startTime : Nat
  endTime : Nat
  totalTime : String
  readableTotalTime : String
deriving DecidableEq

/-- The record built at lines 171-184 for the window `label` whose segment
ran from `st` to `en`. -/
def mkSegment (label : String) (st en : Nat) : ActivitySegment :=
  ⟨extract_app_name label, label, st, en,
    format_timedelta (en - st), format_readable_timedelta (en - st)⟩

/-- The segmenter's mutable state: the globals `active_window_name` and
`start_time` (lines 39-40).  Initially `active_window_name = ""`. -/
structure TrackerState where
  active_window_name : String
  start_time : Nat
deriving DecidableEq

/-- The idle threshold, `timedelta(minutes=5)` (line 161), in seconds. -/
def idle_threshold : Nat := 300

/-- Lines 156-162: observed label of one poll.  `title` is the active
window's title (`none` when no window is focused, giving `"Unknown"`);
the label is overridden to `"Idle"` when `now - last_activity` exceeds
the idle threshold.  `Nat` subtraction truncates at 0, matching the
Python comparison for `last_activity ≤ now`. -/
def observeLabel (title : Option String) (now last_activity : Nat) : String :=
  let new_window_name := title.getD "Unknown"
  if now - last_activity > idle_threshold then "Idle" else new_window_name

/-- Lines 165-193: one iteration of the polling loop, given the already
observed label `new_window_name` and the current time `now`.  Returns the
new state and the emitted segment, if any.  On a label change the open
segment is emitted only when `active_window_name` is non-empty (Python's
truthiness test at line 170); `start_time` is updated only on emission. -/
def trackTick (s : TrackerState) (new_window_name : String) (now : Nat) :
    TrackerState × Option ActivitySegment :=
  if s.active_window_name ≠ new_window_name then
    if s.active_window_name ≠ "" then
      (⟨new_window_name, now⟩, some (mkSegment s.active_window_name s.start_time now))
    else
      (⟨new_window_name, s.start_time⟩, none)
  else (s, none)

/-- The polling loop run over a list of (observed label, time) pairs,
collecting the emitted segments in order. -/
def trackRun (s : TrackerState) : List (String × Nat) → TrackerState × List ActivitySegment
  | [] => (s, [])
  | (l, t) :: rest =>
    let step := trackTick s l t
    let next := trackRun step.1 rest
    (next.1, step.2.toList ++ next.2)

/-- One poll sample: the current time, the active window's title (if any)
and the value of the shared `last_activity_time` at that tick. -/
structure PollInput where
  now : Nat
  title : Option String
  last_activity : Nat
deriving DecidableEq

/-- One loop iteration including the observation step (lines 156-193). -/
def trackTickObs (s : TrackerState) (i : PollInput) :
    TrackerState × Option ActivitySegment :=
  trackTick s (observeLabel i.title i.now i.last_activity) i.now

/-- The polling loop run over raw poll samples. -/
def trackRunObs (s : TrackerState) : List PollInput → TrackerState × List ActivitySegment
  | [] => (s, [])
  | i :: rest =>
    let step := trackTickObs s i
    let next := trackRunObs step.1 rest
    (next.1, step.2.toList ++ next.2)

/-- `save_to_csv` (lines 43-69) on the day's file modelled as
`Option (List ActivitySegment)` (`none` = file absent): when the write
succeeds (`ok = true`) the file becomes the existing rows (if any)
followed by the new rows, rewritten whole; when it raises (`ok = false`)
the exception is caught and logged and the file is unchanged.  The
function never propagates the failure. -/
def save_to_csv (dta : List ActivitySegment) (file : Option (List ActivitySegment))
    (ok : Bool) : Option (List ActivitySegment) :=
  if ok then
    match file with
    | some existing => some (existing ++ dta)
    | none => some dta
  else file

/-- Rows of the modelled CSV file (empty when the file does not exist). -/
def fileRows (file : Option (List ActivitySegment)) : List ActivitySegment :=
  file.getD []

/-- The polling loop together with the `data` buffer and the CSV file
(lines 154-196): on emission the segment is appended to the buffer, the
whole buffer is written with `save_to_csv` (whose success that tick is
the input's `Bool` flag), and the buffer is cleared unconditionally
(line 187 runs whether or not the write succeeded). -/
def trackRunSink (s : TrackerState) (dta : List ActivitySegment)
    (file : Option (List ActivitySegment)) :
    List ((String × Nat) × Bool) →
    TrackerState × List ActivitySegment × Option (List ActivitySegment)
  | [] => (s, dta, file)
  | ((l, t), ok) :: rest =>
    let step := trackTick s l t
    match step.2 with
    | none => trackRunSink step.1 dta file rest
    | some seg =>
      let dta' := dta ++ [seg]
      let file' := save_to_csv dta' file ok
      trackRunSink step.1 [] file' rest

/-- Specification helper: the segments emitted at ticks whose write
succeeded (those that actually reach the file). -/
def okEmissions (s : TrackerState) : List ((String × Nat) × Bool) → List ActivitySegment
  | [] => []
  | ((l, t), ok) :: rest =>
    let step := trackTick s l t
    match step.2 with
    | none => okEmissions step.1 rest
    | some seg => (if ok then [seg] else []) ++ okEmissions step.1 rest

/-- The `KeyboardInterrupt` handler (lines 199-215): close the open
segment (if the current label is non-empty) with `now` as its end, append
it to the pending buffer, and write the buffer to the day's file. -/
def keyboard_interrupt_flush (s : TrackerState) (dta : List ActivitySegment)
    (now : Nat) (file : Option (List ActivitySegment)) (ok : Bool) :
    List ActivitySegment × Option (List ActivitySegment) :=
  let dta' :=
    if s.active_window_name ≠ "" then
      dta ++ [mkSegment s.active_window_name s.start_time now]
    else dta
  (dta', save_to_csv dta' file ok)

/-- Number of adjacent label changes within a sequence of observed
labels. -/
def countLabelChanges : List String → Nat
  | a :: b :: rest => (if a ≠ b then 1 else 0) + countLabelChanges (b :: rest)
  | _ => 0

/-- Adjacent emitted segments tile: each segment's end equals the next
segment's start. -/
def chainedSegs : List ActivitySegment → Bool
  | a :: b :: rest => (a.endTime == b.startTime) && chainedSegs (b :: rest)
  | _ => true

lemma trackTick_same (s : TrackerState) (l : String) (t : Nat)
    (h : s.active_window_name = l) : trackTick s l t = (s, none) := by
  simp [trackTick, h]

lemma trackTick_from_empty (s : TrackerState) (l : String) (t : Nat)
    (h1 : s.active_window_name ≠ l) (h2 : s.active_window_name = "") :
    trackTick s l t = (⟨l, s.start_time⟩, none) := by
  have h1' : "" ≠ l := fun h => h1 (h2.trans h)
  simp [trackTick, h2, h1']

lemma trackTick_emit (s : TrackerState) (l : String) (t : Nat)
    (h1 : s.active_window_name ≠ l) (h2 : s.active_window_name ≠ "") :
    trackTick s l t = (⟨l, t⟩, some (mkSegment s.active_window_name s.start_time t)) := by
  simp [trackTick, h1, h2]

lemma trackRun_cons (s : TrackerState) (l : String) (t : Nat)
    (rest : List (String × Nat)) :
    trackRun s ((l, t) :: rest) =
      ((trackRun (trackTick s l t).1 rest).1,
        (trackTick s l t).2.toList ++ (trackRun (trackTick s l t).1 rest).2) := by
  simp [trackRun]

lemma trackRun_length_aux (inputs : List (String × Nat)) :
    ∀ s : TrackerState, s.active_window_name ≠ "" →
      (∀ p ∈ inputs, p.1 ≠ "") →
      (trackRun s inputs).2.length =
        countLabelChanges (s.active_window_name :: inputs.map Prod.fst) := by
  induction inputs with
  | nil => intro s _ _; simp [trackRun, countLabelChanges]
  | cons p rest ih =>
    intro s hs hall
    obtain ⟨l, t⟩ := p
    have hl : l ≠ "" := hall (l, t) (List.mem_cons_self _ _)
    have hrest : ∀ q ∈ rest, q.1 ≠ "" := fun q hq => hall q (List.mem_cons_of_mem _ hq)
    by_cases hc : s.active_window_name = l
    · rw [trackRun_cons, trackTick_same s l t hc]
      simp only [Option.toList_none, List.nil_append, List.map_cons]
      rw [ih s hs hrest]
      simp [countLabelChanges, hc]
    · rw [trackRun_cons, trackTick_emit s l t hc hs]
      simp only [Option.toList_some, List.singleton_append, List.length_cons, List.map_cons]
      rw [ih ⟨l, t⟩ hl hrest]
      simp [countLabelChanges, hc]
      omega

lemma chainedSegs_cons (a : ActivitySegment) (xs : List ActivitySegment) :
    chainedSegs (a :: xs) = true ↔
      ((∀ b, xs.head? = some b → a.endTime = b.startTime) ∧ chainedSegs xs = true) := by
  cases xs with
  | nil => simp [chainedSegs]
  | cons b ys =>
    simp [chainedSegs, Bool.and_eq_true, beq_iff_eq, List.head?]

lemma chained_aux (inputs : List (String × Nat)) :
    ∀ s : TrackerState,
      chainedSegs (trackRun s inputs).2 = true ∧
      (∀ seg, (trackRun s inputs).2.head? = some seg → seg.startTime = s.start_time) := by
  induction inputs with
  | nil => intro s; simp [trackRun, chainedSegs]
  | cons p rest ih =>
    intro s
    obtain ⟨l, t⟩ := p
    by_cases hc : s.active_window_name = l
    · rw [trackRun_cons, trackTick_same s l t hc]
      simpa using ih s
    · by_cases he : s.active_window_name = ""
      · rw [trackRun_cons, trackTick_from_empty s l t hc he]
        simpa using ih ⟨l, s.start_time⟩
      · rw [trackRun_cons, trackTick_emit s l t hc he]
        simp only [Option.toList_some, List.singleton_append]
        constructor
        · rw [chainedSegs_cons]
          refine ⟨fun b hb => ?_, (ih ⟨l, t⟩).1⟩
          have := (ih ⟨l, t⟩).2 b hb
          simpa [mkSegment] using this.symm
        · intro seg hseg
          simp only [List.head?] at hseg
          cases hseg
          rfl

lemma trackRunObs_cons (s : TrackerState) (i : PollInput) (rest : List PollInput) :
    trackRunObs s (i :: rest) =
      ((trackRunObs (trackTickObs s i).1 rest).1,
        (trackTickObs s i).2.toList ++ (trackRunObs (trackTickObs s i).1 rest).2) := by
  simp [trackRunObs]

lemma observeLabel_idle (i : PollInput)
    (h : i.now - i.last_activity > idle_threshold) :
    observeLabel i.title i.now i.last_activity = "Idle" := by
  simp [observeLabel, h]

lemma idle_stay (L : List PollInput) :
    ∀ s : TrackerState, s.active_window_name = "Idle" →
      (∀ x ∈ L, x.now - x.last_activity > idle_threshold) →
      trackRunObs s L = (s, []) := by
  induction L with
  | nil => intro s _ _; rfl
  | cons i rest ih =>
    intro s hs hall
    have hobs := observeLabel_idle i (hall i (List.mem_cons_self _ _))
    have htick : trackTickObs s i = (s, none) := by
      rw [trackTickObs, hobs]
      exact trackTick_same s "Idle" i.now hs
    rw [trackRunObs_cons, htick]
    simp [ih s hs (fun x hx => hall x (List.mem_cons_of_mem _ hx))]

lemma fileRows_save_ok (d : List ActivitySegment) (f : Option (List ActivitySegment)) :
    save_to_csv d f true = some (fileRows f ++ d) := by
  cases f <;> simp [save_to_csv, fileRows]

lemma save_fail (d : List ActivitySegment) (f : Option (List ActivitySegment)) :
    save_to_csv d f false = f := by
  simp [save_to_csv]

lemma sink_rows_aux (inputs : List ((String × Nat) × Bool)) :
    ∀ (s : TrackerState) (file : Option (List ActivitySegment)),
      fileRows (trackRunSink s [] file inputs).2.2 = fileRows file ++ okEmissions s inputs := by
  induction inputs with
  | nil => intro s file; simp [trackRunSink, okEmissions]
  | cons p rest ih =>
    intro s file
    obtain ⟨⟨l, t⟩, ok⟩ := p
    rcases htick : trackTick s l t with ⟨s', e⟩
    cases e with
    | none =>
      simp only [trackRunSink, okEmissions, htick]
      exact ih s' file
    | some seg =>
      simp only [trackRunSink, okEmissions, htick, List.nil_append]
      cases ok with
      | true =>
        rw [ih s' (save_to_csv [seg] file true), fileRows_save_ok]
        simp [fileRows]
      | false =>
        rw [ih s' (save_to_csv [seg] file false), save_fail]
        simp

lemma okEmissions_all_ok (inputs : List ((String × Nat) × Bool)) :
    ∀ s : TrackerState, (∀ x ∈ inputs, x.2 = true) →
      okEmissions s inputs = (trackRun s (inputs.map Prod.fst)).2 := by
  induction inputs with
  | nil => intro s _; rfl
  | cons p rest ih =>
    intro s hall
    obtain ⟨⟨l, t⟩, ok⟩ := p
    have hok : ok = true := hall ((l, t), ok) (List.mem_cons_self _ _)
    have hrest : ∀ x ∈ rest, x.2 = true := fun x hx => hall x (List.mem_cons_of_mem _ hx)
    rcases htick : trackTick s l t with ⟨s', e⟩
    cases e with
    | none =>
      simp only [okEmissions, List.map_cons, trackRun_cons, htick, Option.toList_none,
        List.nil_append]
      exact ih s' hrest
    | some seg =>
      simp only [okEmissions, List.map_cons, trackRun_cons, htick, hok, if_true,
        Option.toList_some, List.singleton_append]
      rw [ih s' hrest]

lemma sink_state_aux (inputs : List ((String × Nat) × Bool)) :
    ∀ (s : TrackerState) (dta : List ActivitySegment) (file : Option (List ActivitySegment)),
      (trackRunSink s dta file inputs).1 = (trackRun s (inputs.map Prod.fst)).1 := by
  induction inputs with
  | nil => intro s dta file; rfl
  | cons p rest ih =>
    intro s dta file
    obtain ⟨⟨l, t⟩, ok⟩ := p
    rcases htick : trackTick s l t with ⟨s', e⟩
    cases e with
    | none =>
      simp only [trackRunSink, List.map_cons, trackRun_cons, htick]
      exact ih s' dta file
    | some seg =>
      simp only [trackRunSink, List.map_cons, trackRun_cons, htick]
      exact ih s' [] (save_to_csv (dta ++ [seg]) file ok)

lemma sink_buffer_aux (inputs : List ((String × Nat) × Bool)) :
    ∀ (s : TrackerState) (file : Option (List ActivitySegment)),
      (trackRunSink s [] file inputs).2.1 = [] := by
  induction inputs with
  | nil => intro s file; rfl
  | cons p rest ih =>
    intro s file
    obtain ⟨⟨l, t⟩, ok⟩ := p
    rcases htick : trackTick s l t with ⟨s', e⟩
    cases e with
    | none =>
      simp only [trackRunSink, htick]
      exact ih s' file
    | some seg =>
      simp only [trackRunSink, htick]
      exact ih s' (save_to_csv ([] ++ [seg]) file ok)

lemma trackRun_append (xs ys : List (String × Nat)) :
    ∀ s : TrackerState,
      trackRun s (xs ++ ys) =
        ((trackRun (trackRun s xs).1 ys).1,
          (trackRun s xs).2 ++ (trackRun (trackRun s xs).1 ys).2) := by
  induction xs with
  | nil => intro s; simp [trackRun]
  | cons p rest ih =>
    intro s
    obtain ⟨l, t⟩ := p
    rw [List.cons_append, trackRun_cons, trackRun_cons, ih (trackTick s l t).1]
    simp

lemma empty_label_stay (ts : List Nat) :
    ∀ st : Nat, trackRun ⟨"", st⟩ (ts.map (fun t => ("", t))) = (⟨"", st⟩, []) := by
  induction ts with
  | nil => intro st; rfl
  | cons t rest ih =>
    intro st
    rw [List.map_cons, trackRun_cons, trackTick_same ⟨"", st⟩ "" t rfl]
    simp [ih st]

/-- C1 counterexample: the claim "the number of emitted ActivitySegments
equals the number of label changes in the sequence" fails on the concrete
observed-label sequence `["A", "", "B"]` (an empty window title, not
idle-overridden): the run from the initial state emits 1 segment while
the sequence has 2 adjacent label changes, because a change away from an
empty current label emits nothing (line 170's truthiness test). -/
theorem C1_counterexample :
    ¬ ((trackRun ⟨"", 0⟩ [("A", 1), ("", 2), ("B", 3)]).2.length =
        countLabelChanges ["A", "", "B"]) := by
  decide

/-- C1 amended: a segment is emitted at a tick iff the observed label
differs from the current label AND the current label is non-empty; hence
for every sequence of non-empty observed labels, the number of emitted
segments from the initial state equals the number of adjacent label
changes in that sequence (never the number of ticks). -/
theorem C1_segments_equal_changes :
    (∀ (s : TrackerState) (l : String) (t : Nat),
      (trackTick s l t).2.isSome = true ↔
        (s.active_window_name ≠ l ∧ s.active_window_name ≠ "")) ∧
    (∀ (t0 : Nat) (inputs : List (String × Nat)),
      (∀ p ∈ inputs, p.1 ≠ "") →
      (trackRun ⟨"", t0⟩ inputs).2.length = countLabelChanges (inputs.map Prod.fst)) := by
  constructor
  · intro s l t
    by_cases h1 : s.active_window_name = l
    · rw [trackTick_same s l t h1]
      simp [h1]
    · by_cases h2 : s.active_window_name = ""
      · rw [trackTick_from_empty s l t h1 h2]
        simp [h2]
      · rw [trackTick_emit s l t h1 h2]
        simp [h1, h2]
  · intro t0 inputs hall
    cases inputs with
    | nil => rfl
    | cons p rest =>
      obtain ⟨l, t⟩ := p
      have hl : l ≠ "" := hall (l, t) (List.mem_cons_self _ _)
      have hrest : ∀ q ∈ rest, q.1 ≠ "" := fun q hq => hall q (List.mem_cons_of_mem _ hq)
      rw [trackRun_cons, trackTick_from_empty ⟨"", t0⟩ l t (fun h => hl h.symm) rfl]
      simp only [Option.toList_none, List.nil_append, List.map_cons]
      exact trackRun_length_aux rest ⟨l, t0⟩ hl hrest

/-- C1 witness: the amended count equality applied to the concrete
non-empty label sequence `["A", "B", "B", "C"]`. -/
theorem C1_segments_equal_changes_witness :
    (trackRun ⟨"", 0⟩ [("A", 1), ("B", 2), ("B", 3), ("C", 4)]).2.length =
      countLabelChanges ([(("A" : String), (1 : Nat)), ("B", 2), ("B", 3), ("C", 4)].map Prod.fst) :=
  C1_segments_equal_changes.2 0 [("A", 1), ("B", 2), ("B", 3), ("C", 4)] (by decide)

/-- C2: emitted segments tile time with no gaps or overlaps: for every
run of the segmenter, each emitted segment's end timestamp equals the
next emitted segment's start timestamp, because `start_time` is set to
the recorded end exactly when a segment is emitted. -/
theorem C2_segments_tile :
    ∀ (s : TrackerState) (inputs : List (String × Nat)),
      chainedSegs (trackRun s inputs).2 = true :=
  fun s inputs => (chained_aux inputs s).1

/-- C3: while idleness persists (every tick satisfies
`now - last_activity > idle_threshold`) and the current label is a real
window label, the run emits exactly one segment and the label transitions
to `"Idle"` once, never re-triggered; and from the `"Idle"` state, the
first tick after activity is detected (`now - last_activity ≤
idle_threshold`) closes the idle segment and reverts the label to the
real window title. -/
theorem C3_idle_once_and_revert :
    ∀ (s : TrackerState) (L : List PollInput) (i : PollInput) (w : String),
      (s.active_window_name ≠ "Idle" → s.active_window_name ≠ "" → L ≠ [] →
        (∀ x ∈ L, x.now - x.last_activity > idle_threshold) →
        (trackRunObs s L).1.active_window_name = "Idle" ∧
          (trackRunObs s L).2.length = 1) ∧
      (s.active_window_name = "Idle" → i.now - i.last_activity ≤ idle_threshold →
        i.title = some w → w ≠ "Idle" →
        (trackTickObs s i).1.active_window_name = w ∧
          (trackTickObs s i).2 = some (mkSegment "Idle" s.start_time i.now)) := by
  intro s L i w
  constructor
  · intro hni hne hL hall
    cases L with
    | nil => exact absurd rfl hL
    | cons x rest =>
      have hobs := observeLabel_idle x (hall x (List.mem_cons_self _ _))
      have htick : trackTickObs s x =
          (⟨"Idle", x.now⟩, some (mkSegment s.active_window_name s.start_time x.now)) := by
        rw [trackTickObs, hobs]
        exact trackTick_emit s "Idle" x.now hni hne
      rw [trackRunObs_cons, htick]
      rw [idle_stay rest ⟨"Idle", x.now⟩ rfl
        (fun y hy => hall y (List.mem_cons_of_mem _ hy))]
      simp
  · intro hs hle hti hw
    have hobs : observeLabel i.title i.now i.last_activity = w := by
      rw [observeLabel, hti]
      simp [Nat.not_lt.mpr hle]
    have htick : trackTickObs s i =
        (⟨w, i.now⟩, some (mkSegment s.active_window_name s.start_time i.now)) := by
      rw [trackTickObs, hobs]
      exact trackTick_emit s w i.now (hs ▸ fun h => hw h.symm) (hs ▸ (by decide))
    rw [htick, hs]
    exact ⟨rfl, rfl⟩

/-- C3 witness: from the state tracking `"App"`, two consecutive idle
ticks emit exactly one segment and leave the label `"Idle"`; from the
`"Idle"` state, an active tick observing `"App"` closes the idle segment
and reverts the label. -/
theorem C3_idle_once_and_revert_witness :
    ((trackRunObs ⟨"App", 0⟩ [⟨400, some "App", 0⟩, ⟨401, some "App", 0⟩]).1.active_window_name
        = "Idle" ∧
      (trackRunObs ⟨"App", 0⟩ [⟨400, some "App", 0⟩, ⟨401, some "App", 0⟩]).2.length = 1) ∧
    ((trackTickObs ⟨"Idle", 3⟩ ⟨10, some "App", 9⟩).1.active_window_name = "App" ∧
      (trackTickObs ⟨"Idle", 3⟩ ⟨10, some "App", 9⟩).2 = some (mkSegment "Idle" 3 10)) :=
  ⟨(C3_idle_once_and_revert ⟨"App", 0⟩ [⟨400, some "App", 0⟩, ⟨401, some "App", 0⟩]
      ⟨0, none, 0⟩ "").1 (by decide) (by decide) (by decide) (by decide),
    (C3_idle_once_and_revert ⟨"Idle", 3⟩ [] ⟨10, some "App", 9⟩ "App").2
      rfl (by decide) rfl (by decide)⟩

/-- C4 counterexample: the claim's example `"SingleWord" ↦ "SingleWord"`
fails on the code: `"Word"` is a substring of `"SingleWord"`, so the
`"Word"` special case fires first and the result is `"Microsoft Word"`,
not the title unchanged. -/
theorem C4_counterexample :
    extract_app_name "SingleWord" = "Microsoft Word" ∧
      extract_app_name "SingleWord" ≠ "SingleWord" := by
  decide

/-- C4 amended: `extract_app_name` returns the canonical browser name for
titles containing a browser tag (checked in dict order Chrome, Firefox,
Edge), else `"Microsoft Excel"` for titles containing `"Excel"`, else
`"Microsoft Word"` for titles containing `"Word"`, else the last part of
the `" - "` split (second-to-last if blank), else the title unchanged;
the examples hold except that `"SingleWord"` maps to `"Microsoft Word"`
(it contains `"Word"`), while a title like `"Notepad"` that contains no
special substring and no separator maps to itself. -/
theorem C4_app_name_derivation :
    (∀ t : String, strContains t " - Google Chrome" = true →
      extract_app_name t = "Google Chrome") ∧
    (∀ t : String, strContains t " - Google Chrome" = false →
      strContains t " - Mozilla Firefox" = true →
      extract_app_name t = "Mozilla Firefox") ∧
    (∀ t : String, strContains t " - Google Chrome" = false →
      strContains t " - Mozilla Firefox" = false →
      strContains t " - Microsoft Edge" = true →
      extract_app_name t = "Microsoft Edge") ∧
    (∀ t : String, strContains t " - Google Chrome" = false →
      strContains t " - Mozilla Firefox" = false →
      strContains t " - Microsoft Edge" = false →
      strContains t "Excel" = true →
      extract_app_name t = "Microsoft Excel") ∧
    (∀ t : String, strContains t " - Google Chrome" = false →
      strContains t " - Mozilla Firefox" = false →
      strContains t " - Microsoft Edge" = false →
      strContains t "Excel" = false →
      strContains t "Word" = true →
      extract_app_name t = "Microsoft Word") ∧
    (∀ t : String, strContains t " - Google Chrome" = false →
      strContains t " - Mozilla Firefox" = false →
      strContains t " - Microsoft Edge" = false →
      strContains t "Excel" = false →
      strContains t "Word" = false →
      (splitDash t.toList).length ≤ 1 →
      extract_app_name t = t) ∧
    (∀ t : String, strContains t " - Google Chrome" = false →
      strContains t " - Mozilla Firefox" = false →
      strContains t " - Microsoft Edge" = false →
      strContains t "Excel" = false →
      strContains t "Word" = false →
      1 < (splitDash t.toList).length →
      stripChars ((splitDash t.toList).getLastD []) ≠ [] →
      extract_app_name t = String.mk ((splitDash t.toList).getLastD [])) ∧
    (∀ t : String, strContains t " - Google Chrome" = false →
      strContains t " - Mozilla Firefox" = false →
      strContains t " - Microsoft Edge" = false →
      strContains t "Excel" = false →
      strContains t "Word" = false →
      1 < (splitDash t.toList).length →
      stripChars ((splitDash t.toList).getLastD []) = [] →
      extract_app_name t =
        String.mk ((splitDash t.toList).getD ((splitDash t.toList).length - 2) [])) ∧
    (extract_app_name "Report.xlsx - Excel" = "Microsoft Excel" ∧
      extract_app_name "doc.docx - Word" = "Microsoft Word" ∧
      extract_app_name "Untitled - Notepad" = "Notepad" ∧
      extract_app_name "SingleWord" = "Microsoft Word") := by
  refine ⟨?_, ?_, ?_, ?_, ?_, ?_, ?_, ?_, by decide⟩
  · intro t h1
    simp [extract_app_name, browser_tags, List.find?, h1]
  · intro t h1 h2
    simp [extract_app_name, browser_tags, List.find?, h1, h2]
  · intro t h1 h2 h3
    simp [extract_app_name, browser_tags, List.find?, h1, h2, h3]
  · intro t h1 h2 h3 h4
    simp [extract_app_name, browser_tags, List.find?, h1, h2, h3, h4]
  · intro t h1 h2 h3 h4 h5
    simp [extract_app_name, browser_tags, List.find?, h1, h2, h3, h4, h5]
  · intro t h1 h2 h3 h4 h5 h6
    have h6' : (splitDash t.data).length ≤ 1 := h6
    simp [extract_app_name, browser_tags, List.find?, h1, h2, h3, h4, h5]
    intro hgt
    omega
  · intro t h1 h2 h3 h4 h5 hlen hnb
    have hlen' : 1 < (splitDash t.data).length := hlen
    have hnb' : ¬ (stripChars ((splitDash t.data).getLast?.getD []) = []) := by
      rw [← List.getLastD_eq_getLast?]
      exact hnb
    simp [extract_app_name, browser_tags, List.find?, h1, h2, h3, h4, h5, hlen', hnb',
      List.getLastD_eq_getLast?]
  · intro t h1 h2 h3 h4 h5 hlen hb
    have hlen' : 1 < (splitDash t.data).length := hlen
    have hb' : stripChars ((splitDash t.data).getLast?.getD []) = [] := by
      rw [← List.getLastD_eq_getLast?]
      exact hb
    simp [extract_app_name, browser_tags, List.find?, h1, h2, h3, h4, h5, hlen', hb',
      List.getLastD_eq_getLast?]

/-- C4 witness: each clause of the amended derivation applied to a
concrete title; `"Untitled - Notepad"` exercises the multi-part split
with a non-blank last part and `"A -  "` (whose last split part is a
lone space) exercises the blank-last-part fallback to the
second-to-last part. -/
theorem C4_app_name_derivation_witness :
    extract_app_name "Tab - Google Chrome" = "Google Chrome" ∧
    extract_app_name "Tab - Mozilla Firefox" = "Mozilla Firefox" ∧
    extract_app_name "Tab - Microsoft Edge" = "Microsoft Edge" ∧
    extract_app_name "Book1 Excel" = "Microsoft Excel" ∧
    extract_app_name "SingleWord" = "Microsoft Word" ∧
    extract_app_name "Notepad" = "Notepad" ∧
    extract_app_name "Untitled - Notepad" =
      String.mk ((splitDash "Untitled - Notepad".toList).getLastD []) ∧
    extract_app_name "A -  " =
      String.mk ((splitDash "A -  ".toList).getD ((splitDash "A -  ".toList).length - 2) []) :=
  ⟨C4_app_name_derivation.1 "Tab - Google Chrome" (by decide),
    C4_app_name_derivation.2.1 "Tab - Mozilla Firefox" (by decide) (by decide),
    C4_app_name_derivation.2.2.1 "Tab - Microsoft Edge" (by decide) (by decide) (by decide),
    C4_app_name_derivation.2.2.2.1 "Book1 Excel"
      (by decide) (by decide) (by decide) (by decide),
    C4_app_name_derivation.2.2.2.2.1 "SingleWord"
      (by decide) (by decide) (by decide) (by decide) (by decide),
    C4_app_name_derivation.2.2.2.2.2.1 "Notepad"
      (by decide) (by decide) (by decide) (by decide) (by decide) (by decide),
    C4_app_name_derivation.2.2.2.2.2.2.1 "Untitled - Notepad"
      (by decide) (by decide) (by decide) (by decide) (by decide) (by decide) (by decide),
    C4_app_name_derivation.2.2.2.2.2.2.2.1 "A -  "
      (by decide) (by decide) (by decide) (by decide) (by decide) (by decide) (by decide)⟩

/-- C5 counterexample: at a 25-hour duration (90000 s), the zero-padded
form produced by the code is `"01:00:00"`, not the full-duration
rendering `"25:00:00"` the claim ascribes to it: `format_timedelta` also
reads only `td.seconds`, the within-day remainder. -/
theorem C5_counterexample :
    format_timedelta 90000 = "01:00:00" ∧
      specFullHHMMSS 90000 = "25:00:00" ∧
      format_timedelta 90000 ≠ specFullHHMMSS 90000 := by
  decide

/-- C5 amended: BOTH formatted forms decompose only the
seconds-within-day remainder of the duration, so both (not just the
readable one) silently drop whole days when a segment spans more than 24
hours: adding a whole day to a duration leaves both outputs unchanged. -/
theorem C5_both_forms_drop_days :
    ∀ td : Nat,
      format_timedelta (td + 86400) = format_timedelta td ∧
        format_readable_timedelta (td + 86400) = format_readable_timedelta td := by
  intro td
  constructor <;>
    simp [format_timedelta, format_readable_timedelta, tdSeconds, Nat.add_mod_right]

/-- C6: the spec's formatter examples: a 3725-second duration renders as
`"01:02:05"` and as `"1 hr 2 mins 5 sec"`. -/
theorem C6_format_3725 :
    format_timedelta 3725 = "01:02:05" ∧
      format_readable_timedelta 3725 = "1 hr 2 mins 5 sec" := by
  decide

/-- C7: a successful write to an existing same-day file produces the
existing rows followed by the new rows (read, concatenate, rewrite
whole); and because the loop clears its pending buffer right after every
write, a run whose writes all succeed leaves the file holding the
pre-existing rows followed by each emitted segment exactly once — no row
is ever duplicated across repeated same-day writes. -/
theorem C7_merge_no_duplicates :
    (∀ (d : List ActivitySegment) (f : Option (List ActivitySegment)),
      save_to_csv d f true = some (fileRows f ++ d)) ∧
    (∀ (s : TrackerState) (file : Option (List ActivitySegment))
        (inputs : List ((String × Nat) × Bool)),
      (∀ x ∈ inputs, x.2 = true) →
      fileRows (trackRunSink s [] file inputs).2.2 =
        fileRows file ++ (trackRun s (inputs.map Prod.fst)).2) := by
  constructor
  · exact fileRows_save_ok
  · intro s file inputs hall
    rw [sink_rows_aux inputs s file, okEmissions_all_ok inputs s hall]

/-- C7 witness: an all-successful run against a non-empty pre-existing
file appends each emitted segment exactly once after the existing row. -/
theorem C7_merge_no_duplicates_witness :
    fileRows (trackRunSink ⟨"", 0⟩ [] (some [mkSegment "Z" 0 1])
        [(("A", 1), true), (("B", 2), true), (("C", 3), true)]).2.2 =
      fileRows (some [mkSegment "Z" 0 1]) ++
        (trackRun ⟨"", 0⟩
          ([(("A", 1), true), (("B", 2), true), (("C", 3), true)].map Prod.fst)).2 :=
  C7_merge_no_duplicates.2 ⟨"", 0⟩ (some [mkSegment "Z" 0 1])
    [(("A", 1), true), (("B", 2), true), (("C", 3), true)] (by decide)

/-- C8: a write failure is absorbed inside `save_to_csv` (the file is
left unchanged and the call returns normally), the tracker state evolves
exactly as in the failure-free model (the loop continues on the next
tick regardless of write outcomes), the pending buffer is empty after
every iteration whether or not the write succeeded, and the final file
holds precisely the segments whose own write succeeded — a failed
segment is never retried. -/
theorem C8_write_failure_contained :
    (∀ (d : List ActivitySegment) (f : Option (List ActivitySegment)),
      save_to_csv d f false = f) ∧
    (∀ (s : TrackerState) (file : Option (List ActivitySegment))
        (inputs : List ((String × Nat) × Bool)),
      (trackRunSink s [] file inputs).1 = (trackRun s (inputs.map Prod.fst)).1 ∧
      (trackRunSink s [] file inputs).2.1 = [] ∧
      fileRows (trackRunSink s [] file inputs).2.2 =
        fileRows file ++ okEmissions s inputs) :=
  ⟨save_fail, fun s file inputs =>
    ⟨sink_state_aux inputs s [] file, sink_buffer_aux inputs s file,
      sink_rows_aux inputs s file⟩⟩

/-- C9: on `KeyboardInterrupt` with an open segment (non-empty current
label), the handler closes the segment with `now` as its end, appends
the corresponding record to the pending buffer, and a successful final
write leaves the day's file holding its previous rows followed by the
pending buffer including that closing segment. -/
theorem C9_interrupt_flush :
    ∀ (s : TrackerState) (dta : List ActivitySegment) (now : Nat)
        (file : Option (List ActivitySegment)),
      s.active_window_name ≠ "" →
      (keyboard_interrupt_flush s dta now file true).1 =
          dta ++ [mkSegment s.active_window_name s.start_time now] ∧
      (keyboard_interrupt_flush s dta now file true).2 =
          some (fileRows file ++
            (dta ++ [mkSegment s.active_window_name s.start_time now])) := by
  intro s dta now file h
  constructor
  · simp [keyboard_interrupt_flush, h]
  · simp [keyboard_interrupt_flush, h, fileRows_save_ok]

/-- C9 witness: interrupting while tracking `"App"` since time 2, at time
5 with an empty buffer and no existing file, writes exactly the closing
segment. -/
theorem C9_interrupt_flush_witness :
    (keyboard_interrupt_flush ⟨"App", 2⟩ [] 5 none true).1 =
        [] ++ [mkSegment "App" 2 5] ∧
      (keyboard_interrupt_flush ⟨"App", 2⟩ [] 5 none true).2 =
        some (fileRows none ++ ([] ++ [mkSegment "App" 2 5])) :=
  C9_interrupt_flush ⟨"App", 2⟩ [] 5 none (by decide)

/-- C10: an empty window title behaves like the initial no-segment state:
the tick observing it closes the preceding segment, no segment is ever
emitted for the empty-title interval however long it lasts, and the next
emitted segment's start is the moment the empty-title interval began, so
that interval's time is attributed to the following segment. -/
theorem C10_empty_title_interval :
    ∀ (s : TrackerState) (t1 : Nat) (mids : List Nat) (w : String) (t2 : Nat)
        (w' : String) (t3 : Nat),
      s.active_window_name ≠ "" → w ≠ "" → w' ≠ w →
      (trackRun s ((("", t1) :: mids.map (fun t => ("", t))) ++ [(w, t2), (w', t3)])).2 =
        [mkSegment s.active_window_name s.start_time t1, mkSegment w t1 t3] := by
  intro s t1 mids w t2 w' t3 hs hw hww
  rw [List.cons_append, trackRun_cons, trackTick_emit s "" t1 hs hs]
  rw [trackRun_append, empty_label_stay mids t1]
  rw [trackRun_cons, trackTick_from_empty ⟨"", t1⟩ w t2 (fun h => hw h.symm) rfl]
  rw [trackRun_cons, trackTick_emit ⟨w, t1⟩ w' t3 (fun h => hww h.symm) hw]
  simp [trackRun]

/-- C10 witness: tracking `"X"` since time 0, an empty title at time 1
followed by two more empty-title ticks, then `"W"` at time 4 and `"V"`
at time 9, yields exactly the closing segment for `"X"` ending at 1 and
a `"W"` segment starting at 1 (the moment the empty interval began). -/
theorem C10_empty_title_interval_witness :
    (trackRun ⟨"X", 0⟩
        ((("", 1) :: [2, 3].map (fun t => ("", t))) ++ [("W", 4), ("V", 9)])).2 =
      [mkSegment "X" 0 1, mkSegment "W" 1 9] :=
  C10_empty_title_interval ⟨"X", 0⟩ 1 [2, 3] "W" 4 "V" 9
    (by decide) (by decide) (by decide)

end TimeTracking
